import Mathlib

/-
Verification development for the Quran Phonetic Script (QPS) Tajweed rule
engine of `src/direct_arch.py` (class `GenericQuranPhoneticScript` and its
result types).  The Python engine is shallowly embedded below:

  * a text is a `List Char`; `text[pos]` under a bounds guard becomes
    `getC t p` (out-of-range reads never happen behind the source's guards,
    so the default character `'\x00'` is inert);
  * each rule's `condition_func` closure becomes a named `Bool`-valued
    function; every rule of the catalog defines a `condition_func`, so
    `TajweedRule.matches` never reaches the regex fallback branch and we
    embed it as a direct call of the condition;
  * Python's stable `list.sort(key=..., reverse=True)` becomes a stable
    insertion sort by descending effective priority;
  * the `rule_priority` dict with its `.get(category, 0)` lookup becomes an
    `Option Nat`-valued table plus `getD 0`;
  * CPython's `''.join(set(attrs))` iterates the set in an unspecified
    order; we model it by first-occurrence deduplication (`dedupFirst`).
    No claim below depends on the contents of an attribute string, only on
    how many entries the sifa sequence has;
  * Python's `str.isspace` is modelled on the ASCII whitespace characters
    (`pyIsSpace`), which covers every whitespace character appearing in
    the repository's inputs and tests.
-/

-- ==================== Categories (class TajweedRuleCategory) ====================

inductive TajweedRuleCategory where
  | NOON_SAKINAH | MEEM_SAKINAH | LAM_DEFINITE | MADD | QALQALAH | TAFKHIM
  | TARQEEQ | STOPPING | STARTING | SILENT | GUNNAH | IDGHAM | IKHFAA | IQLAB
  | IZHAAR | HAMS | JAHR | SHIDDAH | RIKHWAH | ISTILA | ISTIFAL | ITBAQ
  | INFITAH | SAFEER | TAKREER | INHIRAF
  deriving DecidableEq, Repr

/-- The `.value` string of each `TajweedRuleCategory` enum member. -/
def TajweedRuleCategory.value : TajweedRuleCategory → String
  | .NOON_SAKINAH => "noon_sakinah"
  | .MEEM_SAKINAH => "meem_sakinah"
  | .LAM_DEFINITE => "lam_definite"
  | .MADD => "madd"
  | .QALQALAH => "qalqalah"
  | .TAFKHIM => "tafkhim"
  | .TARQEEQ => "tarqeeq"
  | .STOPPING => "waqf"
  | .STARTING => "ibtida"
  | .SILENT => "sakt"
  | .GUNNAH => "ghunnah"
  | .IDGHAM => "idgham"
  | .IKHFAA => "ikhfa"
  | .IQLAB => "iqlab"
  | .IZHAAR => "izhaar"
  | .HAMS => "hams"
  | .JAHR => "jahr"
  | .SHIDDAH => "shiddah"
  | .RIKHWAH => "rikhwah"
  | .ISTILA => "istila"
  | .ISTIFAL => "istifal"
  | .ITBAQ => "itbaq"
  | .INFITAH => "infitah"
  | .SAFEER => "safeer"
  | .TAKREER => "takreer"
  | .INHIRAF => "inhiraf"

-- ==================== Letter classes (_init_letter_properties) ====================

-- 'ءهعحغخ'
def throatLetters : List Char := ['ء', 'ه', 'ع', 'ح', 'غ', 'خ']
-- 'يومون'
def idghamBiGhunnahLetters : List Char := ['ي', 'و', 'م', 'و', 'ن']
-- 'رل'
def idghamBilaGhunnahLetters : List Char := ['ر', 'ل']
-- 'ب'
def iqlabLetter : Char := 'ب'
-- 'صضطظسشثدذز'
def ikhfaaLetters : List Char :=
  ['ص', 'ض', 'ط', 'ظ', 'س', 'ش', 'ث', 'د', 'ذ', 'ز']
-- 'قطبد'
def qalqalahLetters : List Char := ['ق', 'ط', 'ب', 'د']
-- 'خصضغظقط'
def alwaysHeavy : List Char :=
  ['خ', 'ص', 'ض', 'غ', 'ظ', 'ق', 'ط']
-- 'تثدذرزسشصضطظلن'
def shamsiLetters : List Char :=
  ['ت', 'ث', 'د', 'ذ', 'ر', 'ز', 'س', 'ش',
   'ص', 'ض', 'ط', 'ظ', 'ل', 'ن']
-- 'ءبغحجفكوهي'
def qamariLetters : List Char :=
  ['ء', 'ب', 'غ', 'ح', 'ج', 'ف', 'ك', 'و',
   'ه', 'ي']
-- keys of the dict {'ا': 'ā', 'و': 'ū', 'ي': 'ī'}; conditions only test key membership
def maddLetters : List Char := ['ا', 'و', 'ي']
-- 'نوم'
def ghunnahLetters : List Char := ['ن', 'و', 'م']
-- 'فمب'
def shafawiLetters : List Char := ['ف', 'م', 'ب']
-- 'صسز'
def safeerLetters : List Char := ['ص', 'س', 'ز']
-- 'ر'
def takreerLetter : Char := 'ر'
-- 'لر'
def inhirafLetters : List Char := ['ل', 'ر']
-- 'فحثهسشكخت'
def hamsLetters : List Char :=
  ['ف', 'ح', 'ث', 'ه', 'س', 'ش', 'ك', 'خ', 'ت']
-- 'ءبجدذرزصضطظعغقلمنوهي'
def jahrLetters : List Char :=
  ['ء', 'ب', 'ج', 'د', 'ذ', 'ر', 'ز', 'ص',
   'ض', 'ط', 'ظ', 'ع', 'غ', 'ق', 'ل', 'م',
   'ن', 'و', 'ه', 'ي']

-- the trigger set ['ن', 'ً', 'ٍ', 'ٌ'] used by the five noon-sakinah/tanween conditions
def noonOrTanween : List Char := ['ن', 'ً', 'ٍ', 'ٌ']

-- ==================== Basic text access ====================

/-- `text[pos]` reads of the source.  Every access in the source sits behind a
bounds guard, so the default character is never observable. -/
def getC (t : List Char) (i : Nat) : Char := t[i]?.getD '\x00'

/-- `c in s` for a character against a class string of the source. -/
def charIn (c : Char) (s : List Char) : Bool := decide (c ∈ s)

/-- `str.isspace()` on the characters that can occur in this corpus. -/
def pyIsSpace (c : Char) : Bool :=
  charIn c [' ', '\t', '\n', '\x0b', '\x0c', '\r']

-- ==================== Rule conditions (_init_tajweed_rules closures) ====================

def izhaarCondition (t : List Char) (p : Nat) : Bool :=
  if p + 1 ≥ t.length then false
  else charIn (getC t p) noonOrTanween &&
       (decide (p + 1 < t.length) && charIn (getC t (p + 1)) throatLetters)

def idghamBiGhunnahCondition (t : List Char) (p : Nat) : Bool :=
  if p + 1 ≥ t.length then false
  else charIn (getC t p) noonOrTanween && charIn (getC t (p + 1)) idghamBiGhunnahLetters

def idghamBilaGhunnahCondition (t : List Char) (p : Nat) : Bool :=
  if p + 1 ≥ t.length then false
  else charIn (getC t p) noonOrTanween && charIn (getC t (p + 1)) idghamBilaGhunnahLetters

def iqlabCondition (t : List Char) (p : Nat) : Bool :=
  if p + 1 ≥ t.length then false
  else charIn (getC t p) noonOrTanween && (getC t (p + 1) == iqlabLetter)

def ikhfaaCondition (t : List Char) (p : Nat) : Bool :=
  if p + 1 ≥ t.length then false
  else charIn (getC t p) noonOrTanween && charIn (getC t (p + 1)) ikhfaaLetters

def ikhfaaShafawiCondition (t : List Char) (p : Nat) : Bool :=
  if p + 2 ≥ t.length then false
  else (getC t p == 'م') &&
       (decide (p + 1 < t.length) && (getC t (p + 1) == 'ْ')) &&
       (decide (p + 2 < t.length) && (getC t (p + 2) == 'ب'))

def idghamShafawiCondition (t : List Char) (p : Nat) : Bool :=
  if p + 2 ≥ t.length then false
  else (getC t p == 'م') &&
       (decide (p + 1 < t.length) && (getC t (p + 1) == 'ْ')) &&
       (decide (p + 2 < t.length) && (getC t (p + 2) == 'م'))

def izhaarShafawiCondition (t : List Char) (p : Nat) : Bool :=
  if p + 2 ≥ t.length then false
  else (getC t p == 'م') &&
       (decide (p + 1 < t.length) && (getC t (p + 1) == 'ْ')) &&
       (decide (p + 2 < t.length) && !(charIn (getC t (p + 2)) ['ب', 'م']))

def lamShamsiyyahCondition (t : List Char) (p : Nat) : Bool :=
  if p < 1 ∨ p + 2 ≥ t.length then false
  else (getC t (p - 1) == 'ا') && (getC t p == 'ل') &&
       charIn (getC t (p + 2)) shamsiLetters

def lamQamariyyahCondition (t : List Char) (p : Nat) : Bool :=
  if p < 1 ∨ p + 2 ≥ t.length then false
  else (getC t (p - 1) == 'ا') && (getC t p == 'ل') &&
       charIn (getC t (p + 2)) qamariLetters

def maddTabiiCondition (t : List Char) (p : Nat) : Bool :=
  if p ≥ t.length then false
  else if !(charIn (getC t p) maddLetters) then false
  else if p + 1 < t.length then
    if charIn (getC t (p + 1)) ['ء', 'ْ'] then false
    else if decide (p + 2 < t.length) && (getC t (p + 2) == 'ّ') then false
    else true
  else true

def maddWajibMuttasilCondition (t : List Char) (p : Nat) : Bool :=
  if p + 1 ≥ t.length then false
  else charIn (getC t p) maddLetters && (getC t (p + 1) == 'ء')

def maddJaizMunfasilCondition (t : List Char) (p : Nat) : Bool :=
  if p + 2 ≥ t.length then false
  else charIn (getC t p) maddLetters && pyIsSpace (getC t (p + 1)) &&
       (getC t (p + 2) == 'ء')

def maddLazimCondition (t : List Char) (p : Nat) : Bool :=
  if p + 2 ≥ t.length then false
  else charIn (getC t p) maddLetters && (getC t (p + 2) == 'ّ')

def maddLinCondition (t : List Char) (p : Nat) : Bool :=
  if p + 2 ≥ t.length then false
  else charIn (getC t p) ['و', 'ي'] &&
       (decide (p + 1 < t.length) && (getC t (p + 1) == 'ْ')) &&
       !(charIn (getC t (p + 2)) maddLetters)

def qalqalahKubraCondition (t : List Char) (p : Nat) : Bool :=
  if p + 1 ≥ t.length then false
  else charIn (getC t p) qalqalahLetters &&
       (decide (p + 1 < t.length) && (getC t (p + 1) == 'ْ')) &&
       (decide (p + 2 ≥ t.length) || pyIsSpace (getC t (p + 2)))

def qalqalahWustaCondition (t : List Char) (p : Nat) : Bool :=
  if p + 2 ≥ t.length then false
  else charIn (getC t p) qalqalahLetters &&
       (decide (p + 1 < t.length) && (getC t (p + 1) == 'ْ')) &&
       (decide (p + 2 < t.length) && !(pyIsSpace (getC t (p + 2))))

def tafkhimDaimCondition (t : List Char) (p : Nat) : Bool :=
  if p ≥ t.length then false
  else charIn (getC t p) alwaysHeavy

def tafkhimRaCondition (t : List Char) (p : Nat) : Bool :=
  if p ≥ t.length ∨ ¬(getC t p = 'ر') then false
  else if decide (0 < p) && charIn (getC t (p - 1)) ['َ', 'ُ'] then true
  else if decide (0 < p) && ((getC t (p - 1) == 'ْ') &&
          (decide (1 < p) && charIn (getC t (p - 2)) ['َ', 'ُ'])) then true
  else if decide (p + 1 < t.length) && charIn (getC t (p + 1)) ['َ', 'ُ'] then true
  else false

def tarqeeqRaCondition (t : List Char) (p : Nat) : Bool :=
  if p ≥ t.length ∨ ¬(getC t p = 'ر') then false
  else if decide (0 < p) && (getC t (p - 1) == 'ِ') then true
  else if decide (0 < p) && ((getC t (p - 1) == 'ْ') &&
          (decide (1 < p) && (getC t (p - 2) == 'ِ'))) then true
  else if decide (p + 1 < t.length) && (getC t (p + 1) == 'ِ') then true
  else false

/-- The three comparison strings of the source each consist of FOUR code
points (lam, then two diacritics or a diacritic and a khanjariya alif, then
ha), while `text[pos:pos+3]` is three characters long, so the comparison of
the source can never succeed; the embedding keeps this faithfully. -/
def allahPatterns : List (List Char) :=
  [['ل', 'َ', 'ّ', 'ه'],
   ['ل', 'َ', 'ٰ', 'ه'],
   ['ل', 'ّ', 'َ', 'ه']]

def tafkhimLamAllahCondition (t : List Char) (p : Nat) : Bool :=
  if p + 2 ≥ t.length ∨ ¬(getC t p = 'ل') then false
  else decide ([getC t p, getC t (p + 1), getC t (p + 2)] ∈ allahPatterns)

def ghunnahMushaddadCondition (t : List Char) (p : Nat) : Bool :=
  if p + 1 ≥ t.length then false
  else charIn (getC t p) ghunnahLetters && (getC t (p + 1) == 'ّ')

def hamsCondition (t : List Char) (p : Nat) : Bool :=
  if p ≥ t.length then false
  else charIn (getC t p) hamsLetters

def jahrCondition (t : List Char) (p : Nat) : Bool :=
  if p ≥ t.length then false
  else charIn (getC t p) jahrLetters

def safeerCondition (t : List Char) (p : Nat) : Bool :=
  if p ≥ t.length then false
  else charIn (getC t p) safeerLetters

-- ==================== Rule records (dataclass TajweedRule) ====================

structure TajweedRule where
  name : String
  category : TajweedRuleCategory
  pattern : String
  sifa_output : String
  duration : Nat
  description : String
  condition_func : List Char → Nat → Bool

/-- `TajweedRule.matches`: every rule of the catalog carries a
`condition_func`, so the regex-pattern fallback of the source is dead code
and matching is exactly the condition call. -/
def TajweedRule.matches (r : TajweedRule) (t : List Char) (p : Nat) : Bool :=
  r.condition_func t p

def izhaarHalqiRule : TajweedRule :=
  { name := "izhaar_halqi", category := .IZHAAR, pattern := "", sifa_output := "Z",
    duration := 1,
    description := "Clear pronunciation of noon sakinah/tanween before throat letters",
    condition_func := izhaarCondition }

def idghamBiGhunnahRule : TajweedRule :=
  { name := "idgham_bi_ghunnah", category := .IDGHAM, pattern := "", sifa_output := "DG",
    duration := 2, description := "Merging with nasalization",
    condition_func := idghamBiGhunnahCondition }

def idghamBilaGhunnahRule : TajweedRule :=
  { name := "idgham_bila_ghunnah", category := .IDGHAM, pattern := "", sifa_output := "D",
    duration := 1, description := "Merging without nasalization",
    condition_func := idghamBilaGhunnahCondition }

def iqlabRule : TajweedRule :=
  { name := "iqlab", category := .IQLAB, pattern := "", sifa_output := "BG",
    duration := 2, description := "Conversion of noon to meem",
    condition_func := iqlabCondition }

def ikhfaaRule : TajweedRule :=
  { name := "ikhfaa", category := .IKHFAA, pattern := "", sifa_output := "KG",
    duration := 2, description := "Concealment of noon",
    condition_func := ikhfaaCondition }

def ikhfaaShafawiRule : TajweedRule :=
  { name := "ikhfaa_shafawi", category := .IKHFAA, pattern := "", sifa_output := "KF",
    duration := 2, description := "Labial concealment",
    condition_func := ikhfaaShafawiCondition }

def idghamShafawiRule : TajweedRule :=
  { name := "idgham_shafawi", category := .IDGHAM, pattern := "", sifa_output := "DF",
    duration := 2, description := "Labial merging",
    condition_func := idghamShafawiCondition }

def izhaarShafawiRule : TajweedRule :=
  { name := "izhaar_shafawi", category := .IZHAAR, pattern := "", sifa_output := "ZF",
    duration := 1, description := "Labial clarity",
    condition_func := izhaarShafawiCondition }

def lamShamsiyyahRule : TajweedRule :=
  { name := "lam_shamsiyyah", category := .LAM_DEFINITE, pattern := "", sifa_output := "D",
    duration := 2, description := "Sun letters - lam is assimilated",
    condition_func := lamShamsiyyahCondition }

def lamQamariyyahRule : TajweedRule :=
  { name := "lam_qamariyyah", category := .LAM_DEFINITE, pattern := "", sifa_output := "Z",
    duration := 1, description := "Moon letters - lam is clear",
    condition_func := lamQamariyyahCondition }

def maddTabiiRule : TajweedRule :=
  { name := "madd_tabii", category := .MADD, pattern := "", sifa_output := "2",
    duration := 2, description := "Natural elongation - 2 counts",
    condition_func := maddTabiiCondition }

def maddWajibMuttasilRule : TajweedRule :=
  { name := "madd_wajib_muttasil", category := .MADD, pattern := "", sifa_output := "5",
    duration := 5, description := "Required connected madd - 4-5 counts",
    condition_func := maddWajibMuttasilCondition }

def maddJaizMunfasilRule : TajweedRule :=
  { name := "madd_jaiz_munfasil", category := .MADD, pattern := "", sifa_output := "4",
    duration := 4, description := "Permitted separate madd - 4-5 counts",
    condition_func := maddJaizMunfasilCondition }

def maddLazimRule : TajweedRule :=
  { name := "madd_lazim", category := .MADD, pattern := "", sifa_output := "6",
    duration := 6, description := "Necessary heavy madd - 6 counts",
    condition_func := maddLazimCondition }

def maddLinRule : TajweedRule :=
  { name := "madd_lin", category := .MADD, pattern := "", sifa_output := "4",
    duration := 4, description := "Lin madd - 2-4-6 counts depending on context",
    condition_func := maddLinCondition }

def qalqalahKubraRule : TajweedRule :=
  { name := "qalqalah_kubra", category := .QALQALAH, pattern := "", sifa_output := "C!",
    duration := 2, description := "Major echo - at stop",
    condition_func := qalqalahKubraCondition }

def qalqalahWustaRule : TajweedRule :=
  { name := "qalqalah_wusta", category := .QALQALAH, pattern := "", sifa_output := "C",
    duration := 1, description := "Medium echo - within word",
    condition_func := qalqalahWustaCondition }

def tafkhimDaimRule : TajweedRule :=
  { name := "tafkhim_daim", category := .TAFKHIM, pattern := "", sifa_output := "M",
    duration := 1, description := "Always heavy letters",
    condition_func := tafkhimDaimCondition }

def tafkhimRaRule : TajweedRule :=
  { name := "tafkhim_ra", category := .TAFKHIM, pattern := "", sifa_output := "M",
    duration := 1, description := "Heavy ra",
    condition_func := tafkhimRaCondition }

def tarqeeqRaRule : TajweedRule :=
  { name := "tarqeeq_ra", category := .TARQEEQ, pattern := "", sifa_output := "Q",
    duration := 1, description := "Light ra",
    condition_func := tarqeeqRaCondition }

def tafkhimLamAllahRule : TajweedRule :=
  { name := "tafkhim_lam_allah", category := .TAFKHIM, pattern := "", sifa_output := "M",
    duration := 1, description := "Heavy lam in Allah",
    condition_func := tafkhimLamAllahCondition }

def ghunnahMushaddadRule : TajweedRule :=
  { name := "ghunnah_mushaddad", category := .GUNNAH, pattern := "", sifa_output := "Gː",
    duration := 3, description := "Nasalization with shadda",
    condition_func := ghunnahMushaddadCondition }

def hamsRule : TajweedRule :=
  { name := "hams", category := .HAMS, pattern := "", sifa_output := "H",
    duration := 1, description := "Whispered articulation",
    condition_func := hamsCondition }

def jahrRule : TajweedRule :=
  { name := "jahr", category := .JAHR, pattern := "", sifa_output := "J",
    duration := 1, description := "Voiced articulation",
    condition_func := jahrCondition }

def safeerRule : TajweedRule :=
  { name := "safeer", category := .SAFEER, pattern := "", sifa_output := "Sf",
    duration := 1, description := "Whistling sound",
    condition_func := safeerCondition }

/-- The rule catalog, in the append order of `_init_tajweed_rules`. -/
def tajweedRules : List TajweedRule :=
  [izhaarHalqiRule, idghamBiGhunnahRule, idghamBilaGhunnahRule, iqlabRule, ikhfaaRule,
   ikhfaaShafawiRule, idghamShafawiRule, izhaarShafawiRule,
   lamShamsiyyahRule, lamQamariyyahRule,
   maddTabiiRule, maddWajibMuttasilRule, maddJaizMunfasilRule, maddLazimRule, maddLinRule,
   qalqalahKubraRule, qalqalahWustaRule,
   tafkhimDaimRule, tafkhimRaRule, tarqeeqRaRule, tafkhimLamAllahRule,
   ghunnahMushaddadRule, hamsRule, jahrRule, safeerRule]

-- ==================== Priorities and conflicts (_init_rule_dependencies) ====================

/-- The `rule_priority` dict; categories absent from the dict map to `none`. -/
def rulePriority : TajweedRuleCategory → Option Nat
  | .MADD => some 100
  | .NOON_SAKINAH => some 90
  | .MEEM_SAKINAH => some 90
  | .IQLAB => some 85
  | .IDGHAM => some 80
  | .IKHFAA => some 75
  | .IZHAAR => some 70
  | .QALQALAH => some 60
  | .GUNNAH => some 50
  | .TAFKHIM => some 40
  | .TARQEEQ => some 40
  | .LAM_DEFINITE => some 30
  | .HAMS => some 20
  | .JAHR => some 20
  | _ => none

/-- `self.rule_priority.get(r.category, 0)` of `apply_rules_at_position`. -/
def effectivePriority (r : TajweedRule) : Nat :=
  (rulePriority r.category).getD 0

/-- The `rule_conflicts` dict; querying a name that is not a key gives `[]`,
which is exactly the effect of the `if rule.name in self.rule_conflicts`
guard of the source. -/
def ruleConflicts (n : String) : List String :=
  if n = "idgham_bi_ghunnah" then ["izhaar_halqi", "ikhfaa"]
  else if n = "idgham_bila_ghunnah" then ["izhaar_halqi", "ikhfaa"]
  else if n = "iqlab" then ["izhaar_halqi", "ikhfaa", "idgham"]
  else if n = "ikhfaa" then ["izhaar_halqi", "idgham"]
  else []

-- ==================== Normalizer (normalize_arabic) ====================

/-- `re.sub(r'[ـ]', '', text)`: remove tatweel. -/
def removeTatweel (t : List Char) : List Char :=
  t.filter (fun c => !(c == 'ـ'))

/-- `re.sub(r'[إأٱآ]', 'ا', text)` on one character. -/
def normalizeAlifChar (c : Char) : Char :=
  if charIn c ['إ', 'أ', 'ٱ', 'آ'] then 'ا' else c

/-- `re.sub(r'ة', 'ه', text)` on one character. -/
def normalizeTaChar (c : Char) : Char :=
  if c == 'ة' then 'ه' else c

/-- `normalize_arabic`: the three substitution passes, in source order. -/
def normalizeArabic (t : List Char) : List Char :=
  ((removeTatweel t).map normalizeAlifChar).map normalizeTaChar

-- ==================== Context (get_letter_context) ====================

structure LetterContext where
  current : String
  prev : String
  next : String
  prev_prev : String
  next_next : String
  is_word_start : Bool
  is_word_end : Bool
  is_verse_end : Bool
  has_sukun : Bool
  has_shadda : Bool
  vowel : String
  deriving DecidableEq, Repr

def getLetterContext (t : List Char) (p : Nat) : LetterContext :=
  { current := if p < t.length then String.singleton (getC t p) else ""
    prev := if 0 < p then String.singleton (getC t (p - 1)) else ""
    next := if p + 1 < t.length then String.singleton (getC t (p + 1)) else ""
    prev_prev := if 1 < p then String.singleton (getC t (p - 2)) else ""
    next_next := if p + 2 < t.length then String.singleton (getC t (p + 2)) else ""
    is_word_start := decide (p = 0) || pyIsSpace (getC t (p - 1))
    is_word_end := decide (p = t.length - 1) ||
      (decide (p + 1 < t.length) && pyIsSpace (getC t (p + 1)))
    is_verse_end := decide (p = t.length - 1)
    has_sukun := decide (p + 1 < t.length) && (getC t (p + 1) == 'ْ')
    has_shadda := decide (p + 1 < t.length) && (getC t (p + 1) == 'ّ')
    vowel := if p + 1 < t.length ∧ getC t (p + 1) ∈ ['َ', 'ِ', 'ُ']
             then String.singleton (getC t (p + 1)) else "" }

-- ==================== Applications and the resolver (apply_rules_at_position) ====================

structure RuleApplication where
  rule_name : String
  category : String
  position : Nat
  arabic_char : Char
  phoneme_before : String
  phoneme_after : String
  sifa_applied : String
  duration : Nat
  context : LetterContext
  deriving DecidableEq, Repr

/-- The phoneme rewrite applied when a rule is accepted: IQLAB forces "m";
`idgham_bi_ghunnah` collapses the phoneme to the empty string; every other
rule leaves it unchanged. -/
def updatedPhoneme (r : TajweedRule) (ph : String) : String :=
  if r.category = TajweedRuleCategory.IQLAB then "m"
  else if r.category = TajweedRuleCategory.IDGHAM then
    if r.name = "idgham_bi_ghunnah" then "" else ph
  else ph

def mkApplication (r : TajweedRule) (t : List Char) (pos : Nat) (ctx : LetterContext)
    (phBefore phAfter : String) : RuleApplication :=
  { rule_name := r.name, category := r.category.value, position := pos,
    arabic_char := getC t pos, phoneme_before := phBefore, phoneme_after := phAfter,
    sifa_applied := r.sifa_output, duration := r.duration, context := ctx }

/-- Stable insertion of a rule into a list sorted by descending effective
priority: a rule is placed before the first strictly lower entry, after all
entries of greater or equal priority that were originally before it. -/
def insertByPriority (r : TajweedRule) : List TajweedRule → List TajweedRule
  | [] => [r]
  | x :: xs =>
    if effectivePriority r ≥ effectivePriority x then r :: x :: xs
    else x :: insertByPriority r xs

/-- `matching_rules.sort(key=priority, reverse=True)`: Python's sort is
stable, so rules of equal priority keep their catalog order. -/
def sortByPriorityDesc : List TajweedRule → List TajweedRule
  | [] => []
  | x :: xs => insertByPriority x (sortByPriorityDesc xs)

/-- The accept/skip loop of `apply_rules_at_position`: a candidate is skipped
if some name in `rule_conflicts[candidate.name]` has already been accepted,
or if a rule of the same category has already been accepted; otherwise it is
accepted, recorded, and the running phoneme is updated. -/
def resolveRules (t : List Char) (pos : Nat) (ctx : LetterContext) :
    List TajweedRule → String → List RuleApplication → List TajweedRuleCategory →
    String × List RuleApplication
  | [], ph, acc, _ => (ph, acc)
  | r :: rest, ph, acc, cats =>
    if (ruleConflicts r.name).any (fun c => decide (c ∈ acc.map (fun a => a.rule_name))) then
      resolveRules t pos ctx rest ph acc cats
    else if r.category ∈ cats then
      resolveRules t pos ctx rest ph acc cats
    else
      resolveRules t pos ctx rest (updatedPhoneme r ph)
        (acc ++ [mkApplication r t pos ctx ph (updatedPhoneme r ph)]) (r.category :: cats)

def applyRulesAtPosition (t : List Char) (pos : Nat) (currentPhoneme : String)
    (ctx : LetterContext) : String × List RuleApplication :=
  let matching := tajweedRules.filter (fun r => r.matches t pos)
  let sorted := sortByPriorityDesc matching
  resolveRules t pos ctx sorted currentPhoneme [] []

/-- Modelled from the spec: the resolver as §4.4 words it — a candidate is
skipped exactly when "its name appears in the conflict table keyed by any
rule already accepted at this position", or when a rule of the same category
was already accepted.  Identical to `resolveRules` except for the direction
of the conflict-table lookup. -/
def resolveRulesSpec (t : List Char) (pos : Nat) (ctx : LetterContext) :
    List TajweedRule → String → List RuleApplication → List TajweedRuleCategory →
    String × List RuleApplication
  | [], ph, acc, _ => (ph, acc)
  | r :: rest, ph, acc, cats =>
    if acc.any (fun a => decide (r.name ∈ ruleConflicts a.rule_name)) then
      resolveRulesSpec t pos ctx rest ph acc cats
    else if r.category ∈ cats then
      resolveRulesSpec t pos ctx rest ph acc cats
    else
      resolveRulesSpec t pos ctx rest (updatedPhoneme r ph)
        (acc ++ [mkApplication r t pos ctx ph (updatedPhoneme r ph)]) (r.category :: cats)

/-- Modelled from the spec: `apply_rules_at_position` driven by the spec's
wording of the conflict check. -/
def applyRulesAtPositionSpec (t : List Char) (pos : Nat) (currentPhoneme : String)
    (ctx : LetterContext) : String × List RuleApplication :=
  let matching := tajweedRules.filter (fun r => r.matches t pos)
  let sorted := sortByPriorityDesc matching
  resolveRulesSpec t pos ctx sorted currentPhoneme [] []

-- ==================== Phoneme map (_init_phoneme_mappings) ====================

/-- The `phoneme_map` dict: character, phoneme, name, default sifa list. -/
def phonemeMap : List (Char × String × String × List String) :=
  [('ء', "ʔ", "hamz", ["J", "S"]),
   ('ا', "ʔ", "alif", []),
   ('ب', "b", "ba", ["J", "R", "Q"]),
   ('ت', "t", "ta", ["H", "S"]),
   ('ث', "θ", "tha", ["H", "R"]),
   ('ج', "dʒ", "jeem", ["J", "S", "Q"]),
   ('ح', "ħ", "ha", ["H", "R"]),
   ('خ', "x", "kha", ["H", "R", "I"]),
   ('د', "d", "dal", ["J", "S", "Q"]),
   ('ذ', "ð", "dhal", ["J", "R"]),
   ('ر', "r", "ra", ["J", "T", "Rr"]),
   ('ز', "z", "zay", ["J", "R"]),
   ('س', "s", "seen", ["H", "R", "Sf"]),
   ('ش', "ʃ", "sheen", ["H", "R"]),
   ('ص', "sˤ", "sad", ["J", "R", "I", "B", "Sf"]),
   ('ض', "dˤ", "dad", ["J", "R", "I", "B"]),
   ('ط', "tˤ", "ta", ["J", "S", "I", "B", "Q"]),
   ('ظ', "ðˤ", "za", ["J", "R", "I", "B"]),
   ('ع', "ʕ", "ayn", ["J", "T"]),
   ('غ', "ɣ", "ghayn", ["J", "R", "I"]),
   ('ف', "f", "fa", ["J", "R", "F"]),
   ('ق', "q", "qaf", ["J", "S", "I", "Q"]),
   ('ك', "k", "kaf", ["H", "S"]),
   ('ل', "l", "lam", ["J", "R", "Y"]),
   ('م', "m", "meem", ["J", "R", "F"]),
   ('ن', "n", "noon", ["J", "T", "Y"]),
   ('ه', "h", "ha", ["H", "R"]),
   ('و', "w", "waw", ["J", "R"]),
   ('ي', "j", "ya", ["J", "R"]),
   ('َ', "a", "fatha", []),
   ('ِ', "i", "kasra", []),
   ('ُ', "u", "damma", []),
   ('ً', "an", "tanween_fath", ["G"]),
   ('ٍ', "in", "tanween_kasr", ["G"]),
   ('ٌ', "un", "tanween_damm", ["G"]),
   ('ْ', "", "sukun", []),
   ('ّ', "ː", "shadda", []),
   ('إ', "ʔi", "alif_with_kasra", []),
   ('أ', "ʔa", "alif_with_fatha", []),
   ('آ', "ʔā", "alif_madd", ["M"]),
   ('ٱ', "ʔ", "alif_wasl", []),
   ('ٰ', "ā", "alif_khanjariya", ["M"])]

/-- The `reverse_phoneme_map` lookup. -/
def lookupReverse (c : Char) : Option (String × String × List String) :=
  (phonemeMap.find? (fun e => e.1 == c)).map (fun e => e.2)

/-- Base phoneme and default sifa: map entry when recognized, otherwise the
identity fallback of `process_text` (the character itself, no attributes). -/
def basePhonemeSifa (c : Char) : String × List String :=
  match lookupReverse c with
  | some e => (e.1, e.2.2)
  | none => (String.singleton c, [])

-- ==================== The scan pipeline (process_text) ====================

/-- First-occurrence deduplication; stands in for CPython's unordered
`set(...)` join (see the header note). -/
def dedupFirst : List String → List String → List String
  | [], _ => []
  | x :: xs, seen => if x ∈ seen then dedupFirst xs seen else x :: dedupFirst xs (x :: seen)

/-- `''.join(set(sifa_attrs))` of `process_text`, with first-seen order. -/
def joinSifa (attrs : List String) : String :=
  String.join (dedupFirst attrs [])

/-- `max([app.duration for app in applications]) if applications else 1`. -/
def maxDuration (apps : List RuleApplication) : Nat :=
  match apps.map (fun a => a.duration) with
  | [] => 1
  | d :: ds => ds.foldl max d

/-- One iteration of the `while i < len(arabic_text)` loop of `process_text`
at index `i` on character `c`: emitted phoneme, sifa string, duration, and
the applications appended to the global log.  The source also computes the
context before the whitespace test; the context is pure, so computing it
inside the non-space branch is observationally identical. -/
def emitChar (t : List Char) (i : Nat) (c : Char) :
    String × String × Nat × List RuleApplication :=
  if pyIsSpace c then (" ", " ", 1, [])
  else
    let ctx := getLetterContext t i
    let base := basePhonemeSifa c
    let res := applyRulesAtPosition t i base.1 ctx
    let sifaAttrs := base.2 ++ res.2.map (fun a => a.sifa_applied)
    let sifaStr := if sifaAttrs.isEmpty then "_" else joinSifa sifaAttrs
    (res.1, sifaStr, maxDuration res.2, res.2)

/-- The whole scan loop: `i` is the absolute index, the second list argument
is the not-yet-processed suffix of the text (the loop body advances `i` by
exactly 1 in both branches, so the suffix loses exactly one character per
iteration). -/
def scanList (t : List Char) : Nat → List Char → List String × List String × List Nat × List RuleApplication
  | _, [] => ([], [], [], [])
  | i, c :: rest =>
    ((emitChar t i c).1 :: (scanList t (i + 1) rest).1,
     (emitChar t i c).2.1 :: (scanList t (i + 1) rest).2.1,
     (emitChar t i c).2.2.1 :: (scanList t (i + 1) rest).2.2.1,
     (emitChar t i c).2.2.2 ++ (scanList t (i + 1) rest).2.2.2)

/-- Word boundaries: every whitespace offset of the normalized text. -/
def wordBoundaries (normalized : List Char) : List Nat :=
  (List.range normalized.length).filter (fun j => pyIsSpace (getC normalized j))

structure QPSMetadata where
  qiraat : String
  char_count : Nat
  rule_count : Nat
  unique_rules : Nat
  deriving DecidableEq, Repr

structure QPSResult where
  original_text : List Char
  normalized_text : List Char
  phoneme_sequence : List String
  sifa_sequence : List String
  duration_sequence : List Nat
  rule_applications : List RuleApplication
  word_boundaries : List Nat
  metadata : QPSMetadata
  deriving Repr

/-- `process_text`, the main entry point of the engine. -/
def processText (arabicText : List Char) : QPSResult :=
  let normalized := normalizeArabic arabicText
  let r := scanList arabicText 0 arabicText
  { original_text := arabicText
    normalized_text := normalized
    phoneme_sequence := r.1
    sifa_sequence := r.2.1
    duration_sequence := r.2.2.1
    rule_applications := r.2.2.2
    word_boundaries := wordBoundaries normalized
    metadata :=
      { qiraat := "hafs"
        char_count := arabicText.length
        rule_count := r.2.2.2.length
        unique_rules := (dedupFirst (r.2.2.2.map (fun a => a.rule_name)) []).length } }

-- ==================== Result API (QPSResult.get_detailed_breakdown) ====================

structure BreakdownEntry where
  position : Nat
  arabic : String
  phoneme : String
  sifa : String
  duration : Nat
  rules : List String
  deriving DecidableEq, Repr

/-- The zip loop of `get_detailed_breakdown`: `i` is the sequence index,
`pos` the running duration-weighted offset. -/
def breakdownAux (res : QPSResult) :
    List String → List String → List Nat → Nat → Nat → List BreakdownEntry
  | ph :: phs, sf :: sfs, d :: ds, i, pos =>
    { position := pos
      arabic := if i < res.normalized_text.length
                then String.singleton (getC res.normalized_text i) else ""
      phoneme := ph
      sifa := if sf = "" then "None" else sf
      duration := d
      rules := (res.rule_applications.filter (fun a => a.position == i)).map
        (fun a => a.rule_name) } :: breakdownAux res phs sfs ds (i + 1) (pos + d)
  | _, _, _, _, _ => []

def QPSResult.getDetailedBreakdown (res : QPSResult) : List BreakdownEntry :=
  breakdownAux res res.phoneme_sequence res.sifa_sequence res.duration_sequence 0 0

/-- The names of the rules accepted at position `p` of a processed text
(the per-position view of the global application log). -/
def ruleNamesAt (t : List Char) (p : Nat) : List String :=
  ((processText t).rule_applications.filter (fun a => a.position == p)).map
    (fun a => a.rule_name)

-- ==================== Helper lemmas ====================

theorem scanList_lengths (t : List Char) : ∀ (rest : List Char) (i : Nat),
    (scanList t i rest).1.length = rest.length ∧
    (scanList t i rest).2.1.length = rest.length ∧
    (scanList t i rest).2.2.1.length = rest.length
  | [], _ => by simp [scanList]
  | c :: rest, i => by
    obtain ⟨h1, h2, h3⟩ := scanList_lengths t rest (i + 1)
    simp [scanList, h1, h2, h3]

theorem normalizePass_fix (c : Char) :
    normalizeAlifChar (normalizeTaChar (normalizeAlifChar c)) =
      normalizeTaChar (normalizeAlifChar c) ∧
    normalizeTaChar (normalizeTaChar (normalizeAlifChar c)) =
      normalizeTaChar (normalizeAlifChar c) ∧
    ((c == 'ـ') = false → (normalizeTaChar (normalizeAlifChar c) == 'ـ') = false) := by
  by_cases h : c ∈ (['إ', 'أ', 'ٱ', 'آ'] : List Char)
  · simp +decide [normalizeAlifChar, normalizeTaChar, charIn, h]
  · by_cases h2 : c = 'ة'
    · subst h2; simp +decide [normalizeAlifChar, normalizeTaChar, charIn]
    · simp +decide [normalizeAlifChar, normalizeTaChar, charIn, h, h2]

-- ==================== Claim theorems ====================

/-- C1: for every input string, the phoneme, sifa and duration sequences
produced by `process_text` each have exactly one entry per input character
(whitespace included), i.e. length `len(t)`. -/
theorem claim1_length_invariant (t : List Char) :
    (processText t).phoneme_sequence.length = t.length ∧
    (processText t).sifa_sequence.length = t.length ∧
    (processText t).duration_sequence.length = t.length := by
  have h := scanList_lengths t t 0
  simpa [processText] using h

/-- C2 (code evaluation at the failing input): on the text alif, space,
hamza the engine emits duration 2 at the long-vowel position — only
`madd_tabii` is accepted there — even though `madd_jaiz_munfasil`'s own
condition holds at that position (the rule is shadowed by `madd_tabii`
inside the shared MADD category and can never fire). -/
theorem claim2_code_eval :
    (processText ['ا', ' ', 'ء']).duration_sequence = [2, 1, 1] ∧
    ((processText ['ا', ' ', 'ء']).rule_applications.filter
      (fun a => a.position == 0)).map (fun a => a.rule_name) = ["madd_tabii"] ∧
    maddJaizMunfasilCondition ['ا', ' ', 'ء'] 0 = true := by decide

/-- C4 (counterexample): the catalog contains a rule (`safeer`) whose
category is missing from the priority table, yet the engine is constructed
and runs: processing a text containing a safeer letter silently treats the
missing category as priority 0 and even accepts the rule, instead of
aborting construction. -/
theorem claim4_counterexample :
    (tajweedRules.filter (fun r => (rulePriority r.category).isNone)).map
      (fun r => r.name) = ["safeer"] ∧
    (processText ['ص']).rule_applications.map (fun a => a.rule_name) =
      ["tafkhim_daim", "jahr", "safeer"] := by decide

/-- C7: the text normalizer is idempotent. -/
theorem claim7_normalize_idempotent (t : List Char) :
    normalizeArabic (normalizeArabic t) = normalizeArabic t := by
  unfold normalizeArabic
  set s := removeTatweel t with hs
  set inner := (s.map normalizeAlifChar).map normalizeTaChar with hinner
  have hmem : ∀ x ∈ inner, ∃ y, x = normalizeTaChar (normalizeAlifChar y) ∧
      (y == 'ـ') = false := by
    intro x hx
    rw [hinner] at hx
    obtain ⟨z, hz, rfl⟩ := List.mem_map.mp hx
    obtain ⟨y, hy, rfl⟩ := List.mem_map.mp hz
    refine ⟨y, rfl, ?_⟩
    rw [hs] at hy
    simpa [removeTatweel] using (List.mem_filter.mp hy).2
  have hfilter : removeTatweel inner = inner := by
    unfold removeTatweel
    rw [List.filter_eq_self]
    intro x hx
    obtain ⟨y, rfl, hy⟩ := hmem x hx
    simpa using (normalizePass_fix y).2.2 hy
  rw [hfilter, List.map_map]
  have hid : inner.map (normalizeTaChar ∘ normalizeAlifChar) = inner.map id := by
    apply List.map_congr_left
    intro x hx
    obtain ⟨y, rfl, _⟩ := hmem x hx
    simp [Function.comp, (normalizePass_fix y).1, (normalizePass_fix y).2.1]
  rw [hid, List.map_id]

/-- C8: the empty input yields an empty, valid result: all three sequences
empty, no rule applications, no word boundaries. -/
theorem claim8_empty_input :
    (processText []).phoneme_sequence = [] ∧
    (processText []).sifa_sequence = [] ∧
    (processText []).duration_sequence = [] ∧
    (processText []).rule_applications = [] ∧
    (processText []).word_boundaries = [] := by decide

/-- C9: after a noon carrying an explicit sukun mark, none of the five
noon-sakinah/tanween conditions matches at the noon's position, whatever
follows the sukun: the triggering letter must be directly adjacent. -/
theorem claim9_sukun_blocks_noon_rules (t : List Char) (p : Nat)
    (h1 : t[p]? = some 'ن') (h2 : t[p + 1]? = some 'ْ') :
    izhaarCondition t p = false ∧
    idghamBiGhunnahCondition t p = false ∧
    idghamBilaGhunnahCondition t p = false ∧
    iqlabCondition t p = false ∧
    ikhfaaCondition t p = false := by
  simp +decide [izhaarCondition, idghamBiGhunnahCondition, idghamBilaGhunnahCondition,
    iqlabCondition, ikhfaaCondition, charIn, getC, h1, h2, iqlabLetter]

/-- Witness for C9 at the concrete text noon, sukun, kha. -/
theorem claim9_witness :
    izhaarCondition ['ن', 'ْ', 'خ'] 0 = false ∧
    idghamBiGhunnahCondition ['ن', 'ْ', 'خ'] 0 = false ∧
    idghamBilaGhunnahCondition ['ن', 'ْ', 'خ'] 0 = false ∧
    iqlabCondition ['ن', 'ْ', 'خ'] 0 = false ∧
    ikhfaaCondition ['ن', 'ْ', 'خ'] 0 = false :=
  claim9_sukun_blocks_noon_rules ['ن', 'ْ', 'خ'] 0 (by decide) (by decide)

theorem mem_insertByPriority (x r : TajweedRule) : ∀ (l : List TajweedRule),
    x ∈ insertByPriority r l ↔ x = r ∨ x ∈ l
  | [] => by simp [insertByPriority]
  | y :: ys => by
    rw [insertByPriority]
    split
    · simp
    · rw [List.mem_cons, mem_insertByPriority x r ys, List.mem_cons]
      tauto

theorem mem_sortByPriorityDesc (x : TajweedRule) : ∀ (l : List TajweedRule),
    x ∈ sortByPriorityDesc l ↔ x ∈ l
  | [] => by simp [sortByPriorityDesc]
  | y :: ys => by
    rw [sortByPriorityDesc, mem_insertByPriority, mem_sortByPriorityDesc x ys, List.mem_cons]

theorem resolveRules_acc_sub (t : List Char) (pos : Nat) (ctx : LetterContext) :
    ∀ (rules : List TajweedRule) (ph : String) (acc : List RuleApplication)
      (cats : List TajweedRuleCategory) (a : RuleApplication), a ∈ acc →
      a ∈ (resolveRules t pos ctx rules ph acc cats).2
  | [], ph, acc, cats, a, ha => by rw [resolveRules]; exact ha
  | r :: rest, ph, acc, cats, a, ha => by
    rw [resolveRules]
    split
    · exact resolveRules_acc_sub t pos ctx rest ph acc cats a ha
    · split
      · exact resolveRules_acc_sub t pos ctx rest ph acc cats a ha
      · exact resolveRules_acc_sub t pos ctx rest _ _ _ a (List.mem_append_left _ ha)

theorem resolveRules_apps_shape (t : List Char) (pos : Nat) (ctx : LetterContext) :
    ∀ (rules : List TajweedRule) (ph : String) (acc : List RuleApplication)
      (cats : List TajweedRuleCategory) (a : RuleApplication),
      a ∈ (resolveRules t pos ctx rules ph acc cats).2 →
      a ∈ acc ∨ ∃ r ∈ rules, a.rule_name = r.name ∧ a.position = pos ∧
        a.duration = r.duration
  | [], ph, acc, cats, a, ha => by rw [resolveRules] at ha; exact Or.inl ha
  | r :: rest, ph, acc, cats, a, ha => by
    rw [resolveRules] at ha
    split at ha
    · rcases resolveRules_apps_shape t pos ctx rest ph acc cats a ha with h | ⟨r', hr', hp⟩
      · exact Or.inl h
      · exact Or.inr ⟨r', List.mem_cons_of_mem _ hr', hp⟩
    · split at ha
      · rcases resolveRules_apps_shape t pos ctx rest ph acc cats a ha with h | ⟨r', hr', hp⟩
        · exact Or.inl h
        · exact Or.inr ⟨r', List.mem_cons_of_mem _ hr', hp⟩
      · rcases resolveRules_apps_shape t pos ctx rest _ _ _ a ha with h | ⟨r', hr', hp⟩
        · rcases List.mem_append.mp h with h2 | h2
          · exact Or.inl h2
          · have := List.mem_singleton.mp h2
            subst this
            exact Or.inr ⟨r, List.mem_cons_self r rest, by simp [mkApplication]⟩
        · exact Or.inr ⟨r', List.mem_cons_of_mem _ hr', hp⟩

theorem drop_cons_facts (t : List Char) (i : Nat) (c : Char) (rest : List Char)
    (hd : t.drop i = c :: rest) :
    i < t.length ∧ getC t i = c ∧ t.drop (i + 1) = rest := by
  have hi : i < t.length := by
    by_contra h
    rw [List.drop_eq_nil_of_le (Nat.le_of_not_lt h)] at hd
    exact absurd hd (by simp)
  have hcons := List.drop_eq_getElem_cons (l := t) hi
  rw [hd] at hcons
  injection hcons with hc hrest
  refine ⟨hi, ?_, hrest.symm⟩
  rw [hc, getC, List.getElem?_eq_getElem hi]
  rfl

theorem scanList_get (t : List Char) : ∀ (rest : List Char) (i k : Nat),
    t.drop i = rest → k < rest.length →
    (scanList t i rest).1[k]? = some (emitChar t (i + k) (getC t (i + k))).1 ∧
    (scanList t i rest).2.1[k]? = some (emitChar t (i + k) (getC t (i + k))).2.1 ∧
    (scanList t i rest).2.2.1[k]? = some (emitChar t (i + k) (getC t (i + k))).2.2.1
  | [], i, k, hd, hk => by simp at hk
  | c :: rest, i, k, hd, hk => by
    obtain ⟨hi, hc, hrest⟩ := drop_cons_facts t i c rest hd
    cases k with
    | zero => rw [scanList]; simp [hc]
    | succ k =>
      have ih := scanList_get t rest (i + 1) k hrest (by simpa using hk)
      rw [scanList]
      have harith : i + (k + 1) = (i + 1) + k := by omega
      simpa [harith] using ih

theorem scanList_apps_super (t : List Char) : ∀ (rest : List Char) (i p : Nat),
    t.drop i = rest → i ≤ p → p < t.length →
    ∀ a ∈ (emitChar t p (getC t p)).2.2.2, a ∈ (scanList t i rest).2.2.2
  | [], i, p, hd, hip, hp, a, ha => by
    rw [List.drop_eq_nil_iff] at hd
    omega
  | c :: rest, i, p, hd, hip, hp, a, ha => by
    obtain ⟨hi, hc, hrest⟩ := drop_cons_facts t i c rest hd
    rw [scanList]
    rcases Nat.eq_or_lt_of_le hip with heq | hlt
    · subst heq
      rw [hc] at ha
      exact List.mem_append_left _ ha
    · exact List.mem_append_right _
        (scanList_apps_super t rest (i + 1) p hrest hlt hp a ha)

theorem scanList_apps_source (t : List Char) : ∀ (rest : List Char) (i : Nat),
    t.drop i = rest → ∀ a ∈ (scanList t i rest).2.2.2,
    ∃ p, p < t.length ∧ a ∈ (emitChar t p (getC t p)).2.2.2
  | [], i, hd, a, ha => by rw [scanList] at ha; exact absurd ha (by simp)
  | c :: rest, i, hd, a, ha => by
    obtain ⟨hi, hc, hrest⟩ := drop_cons_facts t i c rest hd
    rw [scanList] at ha
    rcases List.mem_append.mp ha with h | h
    · exact ⟨i, hi, by rwa [hc]⟩
    · exact scanList_apps_source t rest (i + 1) hrest a h

theorem emitChar_apps_shape (t : List Char) (p : Nat) :
    ∀ a ∈ (emitChar t p (getC t p)).2.2.2, a.position = p ∧
      ∃ r ∈ tajweedRules, r.matches t p = true ∧ a.rule_name = r.name ∧
        a.duration = r.duration := by
  intro a ha
  simp only [emitChar] at ha
  split at ha
  · exact absurd ha (by simp)
  · simp only [applyRulesAtPosition] at ha
    rcases resolveRules_apps_shape t p (getLetterContext t p) _ _ _ _ a ha with
      h | ⟨r, hr, hname, hpos, hdur⟩
    · exact absurd h (by simp)
    · have hr2 := (mem_sortByPriorityDesc r _).mp hr
      have hr3 := List.mem_filter.mp hr2
      exact ⟨hpos, r, hr3.1, hr3.2, hname, hdur⟩

theorem processText_apps_mem (t : List Char) (a : RuleApplication)
    (ha : a ∈ (processText t).rule_applications) :
    a.position < t.length ∧ a ∈ (emitChar t a.position (getC t a.position)).2.2.2 := by
  have h0 : a ∈ (scanList t 0 t).2.2.2 := by simpa [processText] using ha
  obtain ⟨q, hq, hmem⟩ := scanList_apps_source t t 0 rfl a h0
  have hshape := emitChar_apps_shape t q a hmem
  rw [hshape.1]
  exact ⟨hq, hmem⟩

theorem processText_apps_super (t : List Char) (p : Nat) (hp : p < t.length)
    (a : RuleApplication) (ha : a ∈ (emitChar t p (getC t p)).2.2.2) :
    a ∈ (processText t).rule_applications := by
  have := scanList_apps_super t t 0 p rfl (Nat.zero_le p) hp a ha
  simpa [processText] using this

theorem processText_seq_get (t : List Char) (p : Nat) (hp : p < t.length) :
    (processText t).phoneme_sequence[p]? = some (emitChar t p (getC t p)).1 ∧
    (processText t).duration_sequence[p]? = some (emitChar t p (getC t p)).2.2.1 := by
  have h := scanList_get t t 0 p rfl (by simpa using hp)
  exact ⟨by simpa [processText] using h.1, by simpa [processText] using h.2.2⟩

theorem not_mem_both {c : Char} {l1 l2 : List Char}
    (hd : ∀ x ∈ l1, x ∉ l2) (h1 : c ∈ l1) (h2 : c ∈ l2) : False := hd c h1 h2

theorem rule_named (r : TajweedRule) (hr : r ∈ tajweedRules) :
    (r.name = "izhaar_halqi" → r = izhaarHalqiRule) ∧
    (r.name = "idgham_bi_ghunnah" → r = idghamBiGhunnahRule) ∧
    (r.name = "idgham_bila_ghunnah" → r = idghamBilaGhunnahRule) ∧
    (r.name = "iqlab" → r = iqlabRule) ∧
    (r.name = "ikhfaa" → r = ikhfaaRule) ∧
    r.name ≠ "idgham" := by
  simp only [tajweedRules, List.mem_cons, List.not_mem_nil, or_false] at hr
  rcases hr with rfl|rfl|rfl|rfl|rfl|rfl|rfl|rfl|rfl|rfl|rfl|rfl|rfl|rfl|rfl|rfl|rfl|rfl|rfl|rfl|rfl|rfl|rfl|rfl|rfl <;>
    refine ⟨fun h => ?_, fun h => ?_, fun h => ?_, fun h => ?_, fun h => ?_, by decide⟩ <;>
    first
      | rfl
      | exact absurd h (by decide)

theorem izhaar_next (t : List Char) (p : Nat) (h : izhaarCondition t p = true) :
    getC t (p + 1) ∈ throatLetters := by
  unfold izhaarCondition at h
  split at h
  · exact absurd h (by decide)
  · simp only [Bool.and_eq_true, charIn, decide_eq_true_eq] at h
    exact h.2.2

theorem idghamBi_next (t : List Char) (p : Nat)
    (h : idghamBiGhunnahCondition t p = true) :
    getC t (p + 1) ∈ idghamBiGhunnahLetters := by
  unfold idghamBiGhunnahCondition at h
  split at h
  · exact absurd h (by decide)
  · simp only [Bool.and_eq_true, charIn, decide_eq_true_eq] at h
    exact h.2

theorem idghamBila_next (t : List Char) (p : Nat)
    (h : idghamBilaGhunnahCondition t p = true) :
    getC t (p + 1) ∈ idghamBilaGhunnahLetters := by
  unfold idghamBilaGhunnahCondition at h
  split at h
  · exact absurd h (by decide)
  · simp only [Bool.and_eq_true, charIn, decide_eq_true_eq] at h
    exact h.2

theorem iqlab_next (t : List Char) (p : Nat) (h : iqlabCondition t p = true) :
    getC t (p + 1) = 'ب' := by
  unfold iqlabCondition at h
  split at h
  · exact absurd h (by decide)
  · simp only [Bool.and_eq_true, charIn, decide_eq_true_eq, beq_iff_eq] at h
    exact h.2

theorem ikhfaa_next (t : List Char) (p : Nat) (h : ikhfaaCondition t p = true) :
    getC t (p + 1) ∈ ikhfaaLetters := by
  unfold ikhfaaCondition at h
  split at h
  · exact absurd h (by decide)
  · simp only [Bool.and_eq_true, charIn, decide_eq_true_eq] at h
    exact h.2

/-- No two rules of the catalog that are related by the conflict table can
match at the same position: the conflict table only relates the five
noon-sakinah/tanween rules, whose next-character classes are pairwise
disjoint (and `"idgham"` names no rule at all). -/
theorem conflict_no_comatch (t : List Char) (pos : Nat) (r1 r2 : TajweedRule)
    (h1 : r1 ∈ tajweedRules) (h2 : r2 ∈ tajweedRules)
    (m1 : r1.matches t pos = true) (m2 : r2.matches t pos = true) :
    r2.name ∉ ruleConflicts r1.name := by
  intro hmem
  unfold ruleConflicts at hmem
  split_ifs at hmem with hn1 hn2 hn3 hn4
  · have e1 := (rule_named r1 h1).2.1 hn1
    subst e1
    have hx1 := idghamBi_next t pos (by simpa [TajweedRule.matches, idghamBiGhunnahRule] using m1)
    simp only [List.mem_cons, List.not_mem_nil, or_false] at hmem
    rcases hmem with hr2 | hr2
    · have e2 := (rule_named r2 h2).1 hr2
      subst e2
      have hx2 := izhaar_next t pos (by simpa [TajweedRule.matches, izhaarHalqiRule] using m2)
      exact not_mem_both (by decide) hx1 hx2
    · have e2 := (rule_named r2 h2).2.2.2.2.1 hr2
      subst e2
      have hx2 := ikhfaa_next t pos (by simpa [TajweedRule.matches, ikhfaaRule] using m2)
      exact not_mem_both (by decide) hx1 hx2
  · have e1 := (rule_named r1 h1).2.2.1 hn2
    subst e1
    have hx1 := idghamBila_next t pos
      (by simpa [TajweedRule.matches, idghamBilaGhunnahRule] using m1)
    simp only [List.mem_cons, List.not_mem_nil, or_false] at hmem
    rcases hmem with hr2 | hr2
    · have e2 := (rule_named r2 h2).1 hr2
      subst e2
      have hx2 := izhaar_next t pos (by simpa [TajweedRule.matches, izhaarHalqiRule] using m2)
      exact not_mem_both (by decide) hx1 hx2
    · have e2 := (rule_named r2 h2).2.2.2.2.1 hr2
      subst e2
      have hx2 := ikhfaa_next t pos (by simpa [TajweedRule.matches, ikhfaaRule] using m2)
      exact not_mem_both (by decide) hx1 hx2
  · have e1 := (rule_named r1 h1).2.2.2.1 hn3
    subst e1
    have hx1 := iqlab_next t pos (by simpa [TajweedRule.matches, iqlabRule] using m1)
    simp only [List.mem_cons, List.not_mem_nil, or_false] at hmem
    rcases hmem with hr2 | hr2 | hr2
    · have e2 := (rule_named r2 h2).1 hr2
      subst e2
      have hx2 := izhaar_next t pos (by simpa [TajweedRule.matches, izhaarHalqiRule] using m2)
      rw [hx1] at hx2
      exact absurd hx2 (by decide)
    · have e2 := (rule_named r2 h2).2.2.2.2.1 hr2
      subst e2
      have hx2 := ikhfaa_next t pos (by simpa [TajweedRule.matches, ikhfaaRule] using m2)
      rw [hx1] at hx2
      exact absurd hx2 (by decide)
    · exact (rule_named r2 h2).2.2.2.2.2 hr2
  · have e1 := (rule_named r1 h1).2.2.2.2.1 hn4
    subst e1
    have hx1 := ikhfaa_next t pos (by simpa [TajweedRule.matches, ikhfaaRule] using m1)
    simp only [List.mem_cons, List.not_mem_nil, or_false] at hmem
    rcases hmem with hr2 | hr2
    · have e2 := (rule_named r2 h2).1 hr2
      subst e2
      have hx2 := izhaar_next t pos (by simpa [TajweedRule.matches, izhaarHalqiRule] using m2)
      exact not_mem_both (by decide) hx1 hx2
    · exact (rule_named r2 h2).2.2.2.2.2 hr2
  · exact absurd hmem (by simp)

theorem resolveRules_spec_eq (t : List Char) (pos : Nat) (ctx : LetterContext) :
    ∀ (rules : List TajweedRule) (ph : String) (acc : List RuleApplication)
      (cats : List TajweedRuleCategory),
      (∀ r ∈ rules, r ∈ tajweedRules ∧ r.matches t pos = true) →
      (∀ a ∈ acc, ∃ r ∈ tajweedRules, r.matches t pos = true ∧ a.rule_name = r.name) →
      resolveRulesSpec t pos ctx rules ph acc cats = resolveRules t pos ctx rules ph acc cats
  | [], ph, acc, cats, _, _ => by rw [resolveRulesSpec, resolveRules]
  | r :: rest, ph, acc, cats, hrules, hacc => by
    have hr := hrules r (List.mem_cons_self r rest)
    have hskipCode : ((ruleConflicts r.name).any
        (fun c => decide (c ∈ acc.map (fun a => a.rule_name)))) = false := by
      rw [Bool.eq_false_iff]
      intro hany
      rw [List.any_eq_true] at hany
      obtain ⟨c, hc, hctrue⟩ := hany
      rw [decide_eq_true_eq, List.mem_map] at hctrue
      obtain ⟨a, ha, hcname⟩ := hctrue
      obtain ⟨ra, hra, hram, hraname⟩ := hacc a ha
      refine conflict_no_comatch t pos r ra hr.1 hra hr.2 hram ?_
      rw [← hraname, hcname]
      exact hc
    have hskipSpec : (acc.any
        (fun a => decide (r.name ∈ ruleConflicts a.rule_name))) = false := by
      rw [Bool.eq_false_iff]
      intro hany
      rw [List.any_eq_true] at hany
      obtain ⟨a, ha, htrue⟩ := hany
      rw [decide_eq_true_eq] at htrue
      obtain ⟨ra, hra, hram, hraname⟩ := hacc a ha
      rw [hraname] at htrue
      exact conflict_no_comatch t pos ra r hra hr.1 hram hr.2 htrue
    rw [resolveRulesSpec, resolveRules, hskipCode, hskipSpec]
    simp only [Bool.false_eq_true, if_false]
    have htail : ∀ r' ∈ rest, r' ∈ tajweedRules ∧ r'.matches t pos = true :=
      fun r' hr' => hrules r' (List.mem_cons_of_mem _ hr')
    split
    · exact resolveRules_spec_eq t pos ctx rest ph acc cats htail hacc
    · refine resolveRules_spec_eq t pos ctx rest _ _ _ htail ?_
      intro a ha
      rcases List.mem_append.mp ha with h | h
      · exact hacc a h
      · have := List.mem_singleton.mp h
        subst this
        exact ⟨r, hr.1, hr.2, by simp [mkApplication]⟩

/-- C3: the resolver of `apply_rules_at_position` accepts and skips exactly
as the spec describes: a candidate (taken in descending priority order) is
skipped precisely when its name appears in the conflict table keyed by an
already-accepted rule, or when its category already produced a winner at
this position — on this catalog the two possible readings of the conflict
check coincide, because conflicting rules can never match simultaneously. -/
theorem claim3_resolver_semantics (t : List Char) (pos : Nat) (ph : String)
    (ctx : LetterContext) :
    applyRulesAtPositionSpec t pos ph ctx = applyRulesAtPosition t pos ph ctx := by
  unfold applyRulesAtPositionSpec applyRulesAtPosition
  apply resolveRules_spec_eq
  · intro r hrr
    rw [mem_sortByPriorityDesc] at hrr
    have h := List.mem_filter.mp hrr
    exact ⟨h.1, h.2⟩
  · intro a ha
    exact absurd ha (by simp)

theorem name_at_position (t : List Char) (p : Nat) (n : String)
    (h : n ∈ ruleNamesAt t p) :
    ∃ r ∈ tajweedRules, r.matches t p = true ∧ r.name = n := by
  rw [ruleNamesAt, List.mem_map] at h
  obtain ⟨a, haf, hname⟩ := h
  rw [List.mem_filter] at haf
  obtain ⟨ha, hposb⟩ := haf
  have hpos : a.position = p := by simpa using hposb
  obtain ⟨hlt, hmem⟩ := processText_apps_mem t a ha
  rw [hpos] at hmem
  obtain ⟨_, r, hr, hm, hrname, _⟩ := emitChar_apps_shape t p a hmem
  exact ⟨r, hr, hm, by rw [← hname, hrname]⟩

/-- C5: if one of `idgham_bi_ghunnah`, `idgham_bila_ghunnah`, `iqlab` is
accepted at a position of any processed text, then neither `izhaar_halqi`
nor `ikhfaa` is accepted at that position. -/
theorem claim5_conflict_suppression (t : List Char) (p : Nat)
    (h : "idgham_bi_ghunnah" ∈ ruleNamesAt t p ∨
         "idgham_bila_ghunnah" ∈ ruleNamesAt t p ∨
         "iqlab" ∈ ruleNamesAt t p) :
    "izhaar_halqi" ∉ ruleNamesAt t p ∧ "ikhfaa" ∉ ruleNamesAt t p := by
  have hwin : ∃ c, getC t (p + 1) = c ∧
      (c ∈ idghamBiGhunnahLetters ∨ c ∈ idghamBilaGhunnahLetters ∨ c = 'ب') := by
    rcases h with hb | hb | hb
    · obtain ⟨r, hr, hm, hn⟩ := name_at_position t p _ hb
      have e := (rule_named r hr).2.1 hn
      subst e
      exact ⟨_, rfl, Or.inl (idghamBi_next t p
        (by simpa [TajweedRule.matches, idghamBiGhunnahRule] using hm))⟩
    · obtain ⟨r, hr, hm, hn⟩ := name_at_position t p _ hb
      have e := (rule_named r hr).2.2.1 hn
      subst e
      exact ⟨_, rfl, Or.inr (Or.inl (idghamBila_next t p
        (by simpa [TajweedRule.matches, idghamBilaGhunnahRule] using hm)))⟩
    · obtain ⟨r, hr, hm, hn⟩ := name_at_position t p _ hb
      have e := (rule_named r hr).2.2.2.1 hn
      subst e
      exact ⟨_, rfl, Or.inr (Or.inr (iqlab_next t p
        (by simpa [TajweedRule.matches, iqlabRule] using hm)))⟩
  obtain ⟨c, hcdef, hc⟩ := hwin
  constructor
  · intro hz
    obtain ⟨rz, hrz, hmz, hnz⟩ := name_at_position t p _ hz
    have ez := (rule_named rz hrz).1 hnz
    subst ez
    have hthroat := izhaar_next t p
      (by simpa [TajweedRule.matches, izhaarHalqiRule] using hmz)
    rw [hcdef] at hthroat
    rcases hc with hcm | hcm | hcm
    · exact not_mem_both (by decide) hcm hthroat
    · exact not_mem_both (by decide) hcm hthroat
    · subst hcm
      exact absurd hthroat (by decide)
  · intro hk
    obtain ⟨rk, hrk, hmk, hnk⟩ := name_at_position t p _ hk
    have ek := (rule_named rk hrk).2.2.2.2.1 hnk
    subst ek
    have hikh := ikhfaa_next t p
      (by simpa [TajweedRule.matches, ikhfaaRule] using hmk)
    rw [hcdef] at hikh
    rcases hc with hcm | hcm | hcm
    · exact not_mem_both (by decide) hcm hikh
    · exact not_mem_both (by decide) hcm hikh
    · subst hcm
      exact absurd hikh (by decide)

/-- Witness for C5 at the concrete text noon, waw. -/
theorem claim5_witness :
    ("idgham_bi_ghunnah" ∈ ruleNamesAt ['ن', 'و'] 0 ∨
     "idgham_bila_ghunnah" ∈ ruleNamesAt ['ن', 'و'] 0 ∨
     "iqlab" ∈ ruleNamesAt ['ن', 'و'] 0) ∧
    ("izhaar_halqi" ∉ ruleNamesAt ['ن', 'و'] 0 ∧ "ikhfaa" ∉ ruleNamesAt ['ن', 'و'] 0) :=
  ⟨Or.inl (by decide),
   claim5_conflict_suppression ['ن', 'و'] 0 (Or.inl (by decide))⟩

theorem uniqueSafeerCategory (r : TajweedRule) (hr : r ∈ tajweedRules)
    (hc : r.category = TajweedRuleCategory.SAFEER) : r = safeerRule := by
  simp only [tajweedRules, List.mem_cons, List.not_mem_nil, or_false] at hr
  rcases hr with rfl|rfl|rfl|rfl|rfl|rfl|rfl|rfl|rfl|rfl|rfl|rfl|rfl|rfl|rfl|rfl|rfl|rfl|rfl|rfl|rfl|rfl|rfl|rfl|rfl <;>
    first
      | rfl
      | exact absurd hc (by decide)

theorem resolveRules_safeer_accept (t : List Char) (pos : Nat) (ctx : LetterContext) :
    ∀ (rules : List TajweedRule) (ph : String) (acc : List RuleApplication)
      (cats : List TajweedRuleCategory),
      (∀ r ∈ rules, r ∈ tajweedRules) → safeerRule ∈ rules →
      TajweedRuleCategory.SAFEER ∉ cats →
      ∃ a ∈ (resolveRules t pos ctx rules ph acc cats).2,
        a.rule_name = "safeer" ∧ a.position = pos
  | [], ph, acc, cats, _, hmem, _ => absurd hmem (by simp)
  | r :: rest, ph, acc, cats, hall, hmem, hcats => by
    by_cases hcat : r.category = TajweedRuleCategory.SAFEER
    · have hre : r = safeerRule :=
        uniqueSafeerCategory r (hall r (List.mem_cons_self r rest)) hcat
      subst hre
      rw [resolveRules]
      have hconf : ruleConflicts safeerRule.name = [] := by decide
      rw [hconf]
      simp only [List.any_nil, Bool.false_eq_true, if_false]
      rw [if_neg (by simpa [safeerRule] using hcats)]
      refine ⟨mkApplication safeerRule t pos ctx ph (updatedPhoneme safeerRule ph),
        ?_, by simp [mkApplication, safeerRule], by simp [mkApplication]⟩
      apply resolveRules_acc_sub
      simp
    · have hrest : safeerRule ∈ rest := by
        rcases List.mem_cons.mp hmem with h | h
        · rw [← h] at hcat
          exact absurd rfl hcat
        · exact h
      have htail : ∀ r' ∈ rest, r' ∈ tajweedRules :=
        fun r' hr' => hall r' (List.mem_cons_of_mem _ hr')
      rw [resolveRules]
      split
      · exact resolveRules_safeer_accept t pos ctx rest ph acc cats htail hrest hcats
      · split
        · exact resolveRules_safeer_accept t pos ctx rest ph acc cats htail hrest hcats
        · refine resolveRules_safeer_accept t pos ctx rest _ _ _ htail hrest ?_
          intro hin
          rcases List.mem_cons.mp hin with h | h
          · exact hcat h.symm
          · exact hcats h

theorem safeerRule_mem : safeerRule ∈ tajweedRules := by
  simp [tajweedRules]

/-- C4 (amended): a category missing from the priority table is NOT a
construction-time error.  The `safeer` rule's category has no entry in the
priority table; the engine is built anyway, the resolver silently treats
the missing entry as priority 0 through its defaulted lookup, and the rule
still fires at every position holding a safeer letter. -/
theorem claim4_amended (t : List Char) (p : Nat) (hp : p < t.length)
    (hmem : getC t p ∈ safeerLetters) :
    rulePriority TajweedRuleCategory.SAFEER = none ∧
    effectivePriority safeerRule = 0 ∧
    "safeer" ∈ ruleNamesAt t p := by
  refine ⟨rfl, rfl, ?_⟩
  have hnl : ¬(p ≥ t.length) := by omega
  have hcond : safeerRule.matches t p = true := by
    simp [TajweedRule.matches, safeerRule, safeerCondition, charIn, hnl, hmem]
  have hsorted : safeerRule ∈
      sortByPriorityDesc (tajweedRules.filter (fun r => r.matches t p)) := by
    rw [mem_sortByPriorityDesc]
    exact List.mem_filter.mpr ⟨safeerRule_mem, hcond⟩
  obtain ⟨a, ha, hname, hpos⟩ := resolveRules_safeer_accept t p (getLetterContext t p)
    (sortByPriorityDesc (tajweedRules.filter (fun r => r.matches t p)))
    (basePhonemeSifa (getC t p)).1 [] []
    (fun r hr => (List.mem_filter.mp ((mem_sortByPriorityDesc r _).mp hr)).1)
    hsorted (by simp)
  have hspace : pyIsSpace (getC t p) = false := by
    simp only [safeerLetters, List.mem_cons, List.not_mem_nil, or_false] at hmem
    rcases hmem with h | h | h <;> rw [h] <;> decide
  have hemit : a ∈ (emitChar t p (getC t p)).2.2.2 := by
    simp only [emitChar, hspace, Bool.false_eq_true, if_false]
    simpa [applyRulesAtPosition] using ha
  have hglob := processText_apps_super t p hp a hemit
  rw [ruleNamesAt, List.mem_map]
  exact ⟨a, List.mem_filter.mpr ⟨hglob, by simp [hpos]⟩, hname⟩

/-- Witness for C4's amended statement at the concrete text sad. -/
theorem claim4_witness :
    rulePriority TajweedRuleCategory.SAFEER = none ∧
    effectivePriority safeerRule = 0 ∧
    "safeer" ∈ ruleNamesAt ['ص'] 0 :=
  claim4_amended ['ص'] 0 (by decide) (by decide)

theorem matching_noon_ba (t : List Char) (p : Nat)
    (h1 : t[p]? = some 'ن') (h2 : t[p + 1]? = some 'ب') :
    tajweedRules.filter (fun r => r.matches t p) = [iqlabRule, jahrRule] := by
  have hlen1 : p + 1 < t.length := (List.getElem?_eq_some_iff.mp h2).1
  have hp : p < t.length := by omega
  simp +decide [tajweedRules, List.filter, TajweedRule.matches,
    izhaarHalqiRule, idghamBiGhunnahRule, idghamBilaGhunnahRule, iqlabRule, ikhfaaRule,
    ikhfaaShafawiRule, idghamShafawiRule, izhaarShafawiRule,
    lamShamsiyyahRule, lamQamariyyahRule,
    maddTabiiRule, maddWajibMuttasilRule, maddJaizMunfasilRule, maddLazimRule, maddLinRule,
    qalqalahKubraRule, qalqalahWustaRule,
    tafkhimDaimRule, tafkhimRaRule, tarqeeqRaRule, tafkhimLamAllahRule,
    ghunnahMushaddadRule, hamsRule, jahrRule, safeerRule,
    izhaarCondition, idghamBiGhunnahCondition, idghamBilaGhunnahCondition,
    iqlabCondition, ikhfaaCondition, ikhfaaShafawiCondition, idghamShafawiCondition,
    izhaarShafawiCondition, lamShamsiyyahCondition, lamQamariyyahCondition,
    maddTabiiCondition, maddWajibMuttasilCondition, maddJaizMunfasilCondition,
    maddLazimCondition, maddLinCondition, qalqalahKubraCondition, qalqalahWustaCondition,
    tafkhimDaimCondition, tafkhimRaCondition, tarqeeqRaCondition, tafkhimLamAllahCondition,
    ghunnahMushaddadCondition, hamsCondition, jahrCondition, safeerCondition,
    charIn, getC, pyIsSpace, iqlabLetter, h1, h2,
    Nat.not_le_of_lt hlen1, Nat.not_le_of_lt hp]

/-- C6: wherever a noon is immediately followed by ba, `iqlab` is accepted
at the noon's position, the emitted duration there is 2, and the emitted
phoneme there becomes "m". -/
theorem claim6_iqlab (t : List Char) (p : Nat)
    (h1 : t[p]? = some 'ن') (h2 : t[p + 1]? = some 'ب') :
    (processText t).phoneme_sequence[p]? = some "m" ∧
    (processText t).duration_sequence[p]? = some 2 ∧
    "iqlab" ∈ ruleNamesAt t p := by
  have hlen1 : p + 1 < t.length := (List.getElem?_eq_some_iff.mp h2).1
  have hp : p < t.length := by omega
  have hgc : getC t p = 'ن' := by simp [getC, h1]
  have hfilter := matching_noon_ba t p h1 h2
  have happ1 : (applyRulesAtPosition t p "n" (getLetterContext t p)).1 = "m" := by
    unfold applyRulesAtPosition
    rw [hfilter]
    rfl
  have happ2 : (applyRulesAtPosition t p "n" (getLetterContext t p)).2.map
      (fun a => a.duration) = [2, 1] := by
    unfold applyRulesAtPosition
    rw [hfilter]
    rfl
  have happ3 : (applyRulesAtPosition t p "n" (getLetterContext t p)).2.map
      (fun a => a.rule_name) = ["iqlab", "jahr"] := by
    unfold applyRulesAtPosition
    rw [hfilter]
    rfl
  have hsp : pyIsSpace 'ن' = false := by decide
  have hbase : basePhonemeSifa 'ن' = ("n", ["J", "T", "Y"]) := by decide
  have he1 : (emitChar t p (getC t p)).1 =
      (applyRulesAtPosition t p "n" (getLetterContext t p)).1 := by
    rw [hgc]
    simp [emitChar, hsp, hbase]
  have he3 : (emitChar t p (getC t p)).2.2.1 =
      maxDuration (applyRulesAtPosition t p "n" (getLetterContext t p)).2 := by
    rw [hgc]
    simp [emitChar, hsp, hbase]
  have he4 : (emitChar t p (getC t p)).2.2.2 =
      (applyRulesAtPosition t p "n" (getLetterContext t p)).2 := by
    rw [hgc]
    simp [emitChar, hsp, hbase]
  have hmax : maxDuration (applyRulesAtPosition t p "n" (getLetterContext t p)).2 = 2 := by
    unfold maxDuration
    rw [happ2]
    decide
  obtain ⟨hg1, hg3⟩ := processText_seq_get t p hp
  refine ⟨?_, ?_, ?_⟩
  · rw [hg1, he1, happ1]
  · rw [hg3, he3, hmax]
  · have hnames : "iqlab" ∈ ((emitChar t p (getC t p)).2.2.2).map
        (fun a => a.rule_name) := by
      rw [he4, happ3]
      simp
    obtain ⟨a, ha, hname⟩ := List.mem_map.mp hnames
    have hshape := emitChar_apps_shape t p a ha
    have hglob := processText_apps_super t p hp a ha
    rw [ruleNamesAt, List.mem_map]
    exact ⟨a, List.mem_filter.mpr ⟨hglob, by simp [hshape.1]⟩, hname⟩

/-- Witness for C6 at the concrete text noon, ba. -/
theorem claim6_witness :
    (processText ['ن', 'ب']).phoneme_sequence[0]? = some "m" ∧
    (processText ['ن', 'ب']).duration_sequence[0]? = some 2 ∧
    "iqlab" ∈ ruleNamesAt ['ن', 'ب'] 0 :=
  claim6_iqlab ['ن', 'ب'] 0 (by decide) (by decide)

theorem breakdownAux_fields (res : QPSResult) :
    ∀ (phs sfs : List String) (ds : List Nat) (i pos k : Nat)
      (h : k < (breakdownAux res phs sfs ds i pos).length),
      ((breakdownAux res phs sfs ds i pos).get ⟨k, h⟩).arabic =
        (if i + k < res.normalized_text.length
         then String.singleton (getC res.normalized_text (i + k)) else "") ∧
      phs[k]? = some ((breakdownAux res phs sfs ds i pos).get ⟨k, h⟩).phoneme ∧
      ds[k]? = some ((breakdownAux res phs sfs ds i pos).get ⟨k, h⟩).duration
  | [], _, _, i, pos, k, h => by simp [breakdownAux] at h
  | _ :: _, [], _, i, pos, k, h => by simp [breakdownAux] at h
  | _ :: _, _ :: _, [], i, pos, k, h => by simp [breakdownAux] at h
  | ph :: phs, sf :: sfs, d :: ds, i, pos, k, h => by
    cases k with
    | zero => simp [breakdownAux]
    | succ k =>
      have h' : k < (breakdownAux res phs sfs ds (i + 1) (pos + d)).length := by
        rw [breakdownAux] at h
        simpa using h
      have ih := breakdownAux_fields res phs sfs ds (i + 1) (pos + d) k h'
      have harith : i + (k + 1) = (i + 1) + k := by omega
      rw [harith]
      simpa [breakdownAux] using ih

/-- C10: in `get_detailed_breakdown` the reported character at sequence
index `k` is read from the NORMALIZED text (empty when the index runs past
it), while the phoneme and duration at that entry are the ones computed for
`original_text[k]`; on any text that normalization changes (here a tatweel
before a ba) the reported character differs from the character actually
processed at that index. -/
theorem claim10_breakdown_arabic :
    (∀ (t : List Char) (k : Nat)
      (h : k < ((processText t).getDetailedBreakdown).length),
      (((processText t).getDetailedBreakdown).get ⟨k, h⟩).arabic =
        (if k < (normalizeArabic t).length
         then String.singleton (getC (normalizeArabic t) k) else "") ∧
      (processText t).phoneme_sequence[k]? =
        some ((((processText t).getDetailedBreakdown).get ⟨k, h⟩).phoneme) ∧
      (processText t).duration_sequence[k]? =
        some ((((processText t).getDetailedBreakdown).get ⟨k, h⟩).duration)) ∧
    (((processText ['ـ', 'ب']).getDetailedBreakdown).get ⟨0, by decide⟩).arabic ≠
      String.singleton (getC ['ـ', 'ب'] 0) := by
  constructor
  · intro t k h
    have hnorm : (processText t).normalized_text = normalizeArabic t := rfl
    have hb := breakdownAux_fields (processText t) (processText t).phoneme_sequence
      (processText t).sifa_sequence (processText t).duration_sequence 0 0 k h
    rw [hnorm] at hb
    simpa [QPSResult.getDetailedBreakdown] using hb
  · decide

/-- Witness for C10's universal part at the concrete text tatweel, ba. -/
theorem claim10_witness :
    (((processText ['ـ', 'ب']).getDetailedBreakdown).get ⟨0, by decide⟩).arabic =
      (if 0 < (normalizeArabic ['ـ', 'ب']).length
       then String.singleton (getC (normalizeArabic ['ـ', 'ب']) 0) else "") :=
  (claim10_breakdown_arabic.1 ['ـ', 'ب'] 0 (by decide)).1
